import Mathlib

/-!
Verification of the OnWriting quality-gating subsystem.

Shallow embedding of the rubric scoring model (`ai_writer/schemas/editing.py`),
the deterministic text metrics (`ai_writer/utils/text_analysis/basics.py`,
`slop.py`, `repetition.py`) and the control-loop decision function
(`ai_writer/pipelines/prototype.py`).

Python floats are modelled as exact rationals (ℚ).  All constants appearing
in the code (0.2-weights, 0.04/0.02 penalties, 0.7 threshold, 0.25 tolerance)
are exact small decimals, and the reachable values of the rounded quantities
are never half-way between two rounding targets, so exact rational arithmetic
agrees with the source's float arithmetic on every value the claims mention.
Python strings are modelled as `List Char`.
-/

namespace OnWriting

/-- Python's `round(x, 2)` on the reachable (tie-free) values: multiply by
100, round to the nearest integer, divide back. -/
def pyRound2 (q : ℚ) : ℚ := (⌊q * 100 + 1/2⌋ : ℤ) / 100

/-- Python's `round(x, 3)` on the reachable (tie-free) values. -/
def pyRound3 (q : ℚ) : ℚ := (⌊q * 1000 + 1/2⌋ : ℤ) / 1000

/-! ## `schemas/editing.py` — SceneRubric -/

/-- `APPROVE_THRESHOLD = 0.7` (editing.py line 92). -/
def APPROVE_THRESHOLD : ℚ := 7/10

/-- The five equal dimension weights (`DIMENSION_WEIGHTS`, editing.py
lines 84-90): each dimension is weighted 0.20. -/
def DIMENSION_WEIGHT : ℚ := 20/100

/-- `SceneRubric` (editing.py lines 95-134).  Pydantic field constraints
(`ge=1, le=4` on the dimensions, `ge=0.0, le=1.0` on `slop_ratio`) are
carried as hypotheses where a claim needs them.  `dimension_reasoning`
is free text and does not influence any computation, so it is omitted. -/
structure SceneRubric where
  word_count_in_range : Bool := true
  tense_consistent : Bool := true
  slop_ratio : ℚ := 1
  style_adherence : ℕ := 2
  character_voice : ℕ := 2
  outline_adherence : ℕ := 2
  pacing : ℕ := 2
  prose_quality : ℕ := 2
  opener_monotony : Bool := false
  length_monotony : Bool := false
  passive_heavy : Bool := false
  structural_monotony : Bool := false
  low_diversity : Bool := false
  vocabulary_basic : Bool := false
  cross_scene_repetitions : ℕ := 0
  deriving Repr, DecidableEq

/-- The weighted dimension sum of `compute_quality_score`
(editing.py lines 144-154). -/
def SceneRubric.weighted_sum (r : SceneRubric) : ℚ :=
  (r.style_adherence : ℚ) * DIMENSION_WEIGHT
    + (r.character_voice : ℚ) * DIMENSION_WEIGHT
    + (r.outline_adherence : ℚ) * DIMENSION_WEIGHT
    + (r.pacing : ℚ) * DIMENSION_WEIGHT
    + (r.prose_quality : ℚ) * DIMENSION_WEIGHT

/-- The advisory penalty of `compute_quality_score`
(editing.py lines 158-174): per-flag penalties plus
`0.02 * min(cross_scene_repetitions, 3)`. -/
def SceneRubric.advisory_penalty (r : SceneRubric) : ℚ :=
  (if r.opener_monotony then 4/100 else 0)
    + (if r.length_monotony then 4/100 else 0)
    + (if r.passive_heavy then 2/100 else 0)
    + (if r.structural_monotony then 2/100 else 0)
    + (if r.low_diversity then 4/100 else 0)
    + (if r.vocabulary_basic then 2/100 else 0)
    + (2/100) * (min r.cross_scene_repetitions 3 : ℚ)

/-- `SceneRubric.compute_quality_score` (editing.py lines 136-176):
weighted average of the five dimensions normalized to [0,1] by
`(weighted_sum - 1) / 3`, minus the advisory penalty, clamped to [0,1]
and rounded to two decimals. -/
def SceneRubric.compute_quality_score (r : SceneRubric) : ℚ :=
  let normalized : ℚ := (r.weighted_sum - 1) / 3
  pyRound2 (max 0 (min 1 (normalized - r.advisory_penalty)))

/-- `SceneRubric.has_critical_failure` (editing.py lines 178-189):
any dimension at 1/4 (`score <= 1`) is a critical failure. -/
def SceneRubric.has_critical_failure (r : SceneRubric) : Bool :=
  decide (r.style_adherence ≤ 1) || decide (r.character_voice ≤ 1)
    || decide (r.outline_adherence ≤ 1) || decide (r.pacing ≤ 1)
    || decide (r.prose_quality ≤ 1)

/-- `SceneRubric.compute_approved` (editing.py lines 191-198):
score at or above `APPROVE_THRESHOLD`, no critical failure, and both
deterministic gates (`word_count_in_range`, `tense_consistent`). -/
def SceneRubric.compute_approved (r : SceneRubric) : Bool :=
  let score_ok := decide (APPROVE_THRESHOLD ≤ r.compute_quality_score)
  let no_critical := ! r.has_critical_failure
  let deterministic_ok := r.word_count_in_range && r.tense_consistent
  score_ok && no_critical && deterministic_ok

/-- All-fours rubric used by the boundary claims. -/
def rubricAllFours : SceneRubric :=
  { style_adherence := 4, character_voice := 4, outline_adherence := 4,
    pacing := 4, prose_quality := 4 }

/-- All-threes rubric used by the boundary claims. -/
def rubricAllThrees : SceneRubric :=
  { style_adherence := 3, character_voice := 3, outline_adherence := 3,
    pacing := 3, prose_quality := 3 }

/-- All-fours rubric with a failed word-count gate. -/
def rubricWordFail : SceneRubric :=
  { rubricAllFours with word_count_in_range := false }

/-- All-fours rubric with every advisory flag raised. -/
def rubricAllFlags : SceneRubric :=
  { rubricAllFours with
    opener_monotony := true, length_monotony := true, passive_heavy := true,
    structural_monotony := true, low_diversity := true, vocabulary_basic := true }

/-- All-4 dimensions, clean advisory flags, zero cross-scene repetitions,
arbitrary deterministic-gate fields. -/
def rubricCleanWith (w t : Bool) (s : ℚ) : SceneRubric :=
  { word_count_in_range := w, tense_consistent := t, slop_ratio := s,
    style_adherence := 4, character_voice := 4, outline_adherence := 4,
    pacing := 4, prose_quality := 4 }

/-- Same as `rubricCleanWith` but with all six advisory flags raised. -/
def rubricFlaggedWith (w t : Bool) (s : ℚ) : SceneRubric :=
  { rubricCleanWith w t s with
    opener_monotony := true, length_monotony := true, passive_heavy := true,
    structural_monotony := true, low_diversity := true, vocabulary_basic := true }

/-! ## `utils/text_analysis/basics.py` — word count and tense -/

/-- Python `str`, modelled as a list of characters. -/
abbrev PyStr := List Char

/-- Accumulator loop behind Python's `str.split()`: `acc` holds the
current word reversed. -/
def pySplitAux : List Char → List Char → List (List Char)
  | [], acc => if acc = [] then [] else [acc.reverse]
  | c :: cs, acc =>
    if c.isWhitespace then
      if acc = [] then pySplitAux cs [] else acc.reverse :: pySplitAux cs []
    else pySplitAux cs (c :: acc)

/-- Python `str.split()` with no separator: split on runs of whitespace,
producing no empty pieces.  Used by `check_word_count`
(`len(prose.split())`, basics.py line 36) and `compute_slop_score`
(`prose.split()`, slop.py line 90). -/
def pySplitWhitespace (s : PyStr) : List PyStr := pySplitAux s []

/-- `WordCountResult` (basics.py lines 13-20). -/
structure WordCountResult where
  actual : ℕ := 0
  target : ℤ := 0
  within_tolerance : Bool := true
  deviation : ℚ := 0
  deriving Repr, DecidableEq

/-- `check_word_count` (basics.py lines 23-48): whitespace word count
against a target within a fractional tolerance; `target <= 0` short-circuits
to within-tolerance. -/
def check_word_count (prose : PyStr) (target : ℤ) (tolerance : ℚ := 1/4) :
    WordCountResult :=
  let actual := (pySplitWhitespace prose).length
  if target ≤ 0 then
    { actual := actual, target := target, within_tolerance := true }
  else
    let deviation : ℚ := ((actual : ℚ) - (target : ℚ)) / (target : ℚ)
    { actual := actual, target := target,
      within_tolerance := decide (|deviation| ≤ tolerance),
      deviation := pyRound3 deviation }

/-- A text of `n` whitespace-separated words ("a a a … a "), used as a
concrete witness input. -/
def wordsText (n : ℕ) : PyStr := (List.replicate n ['a', ' ']).flatten

/-- `TenseResult` (basics.py lines 71-79). -/
structure TenseResult where
  dominant_tense : String := "unknown"
  past_ratio : ℚ := 0
  present_ratio : ℚ := 0
  consistent : Bool := true
  minority_ratio : ℚ := 0
  deriving Repr, DecidableEq

/-- The tally-to-verdict core of `check_tense_consistency` (basics.py
lines 136-156), taking the counted past-tag (`VBD`/`VBN`) and present-tag
(`VBP`/`VBZ`) verb tokens of the narration as input — the spaCy tagging
that produces the two counts is an external model (`_get_nlp`).  From
`total = past_count + present_count` on, the source is embedded verbatim:
dominant tense by `past_ratio >= present_ratio` (ties to past), minority
ratio the non-dominant ratio, consistent iff the unrounded minority ratio
is at most `threshold`, and all-zero counts default to
"unknown"/consistent. -/
def tenseVerdict (past_count present_count : ℕ) (threshold : ℚ := 15/100) :
    TenseResult :=
  let total := past_count + present_count
  if total = 0 then { dominant_tense := "unknown", consistent := true }
  else
    let past_ratio : ℚ := (past_count : ℚ) / (total : ℚ)
    let present_ratio : ℚ := (present_count : ℚ) / (total : ℚ)
    let dm : String × ℚ :=
      if present_ratio ≤ past_ratio then ("past", present_ratio)
      else ("present", past_ratio)
    { dominant_tense := dm.1,
      past_ratio := pyRound3 past_ratio,
      present_ratio := pyRound3 present_ratio,
      consistent := decide (dm.2 ≤ threshold),
      minority_ratio := pyRound3 dm.2 }

/-! ## `utils/text_analysis/repetition.py` — cross-scene repetition -/

/-- Characters stripped from word edges by `_extract_ngrams`
(repetition.py line 36): `.,!?;:"'()-` plus em dash and en dash. -/
def ngramPunct : List Char :=
  ['.', ',', '!', '?', ';', ':', '"', '\'', '(', ')', '-', '—', '–']

/-- Python `str.strip(chars)` from the left only. -/
def pyStripLeft (chars : List Char) : PyStr → PyStr
  | [] => []
  | c :: cs => if c ∈ chars then pyStripLeft chars cs else c :: cs

/-- Python `str.strip(chars)`: remove leading and trailing characters
belonging to `chars`. -/
def pyStrip (chars : List Char) (s : PyStr) : PyStr :=
  (pyStripLeft chars (pyStripLeft chars s).reverse).reverse

/-- Python `str.strip()` with no arguments: remove leading and trailing
whitespace. -/
def pyStripWS (s : PyStr) : PyStr :=
  ((s.dropWhile Char.isWhitespace).reverse.dropWhile Char.isWhitespace).reverse

/-- Python `str.lower()` (ASCII case folding; every text the claims touch
is ASCII). -/
def pyLower (s : PyStr) : PyStr := s.map Char.toLower

/-- The `n`-grams of a word list as space-joined strings:
`" ".join(words[i:i+n])` for `i in range(len(words) - n + 1)`
(repetition.py lines 40-43; the truncated subtraction reproduces Python's
empty `range` when `n > len(words)`). -/
def ngramsOfLen (words : List PyStr) (n : ℕ) : List PyStr :=
  (List.range (words.length + 1 - n)).map fun i =>
    List.intercalate [' '] ((words.drop i).take n)

/-- `_extract_ngrams` (repetition.py lines 32-44): lowercase, split on
whitespace, strip punctuation from word edges, drop emptied words, and
collect every n-gram for `n in range(min_n, max_n + 1)`.  The Python set
is modelled as a duplicate-free list (`dedup`). -/
def extract_ngrams (text : PyStr) (min_n max_n : ℕ) : List PyStr :=
  let words :=
    ((pySplitWhitespace (pyLower text)).map (pyStrip ngramPunct)).filter
      fun w => ! w.isEmpty
  ((((List.range (max_n + 1 - min_n)).map fun k => min_n + k).map
      (ngramsOfLen words)).join).dedup

/-- `_is_common_collocation` (repetition.py lines 47-57).  The `wordfreq`
Zipf table is external vendor data, supplied here as a function together
with the `_HAS_WORDFREQ` availability flag: false when `wordfreq` is
unavailable, else true iff every word of the n-gram has Zipf frequency
strictly above 5.0. -/
def is_common_collocation (hasWordfreq : Bool) (zipf : PyStr → ℚ)
    (ngram : PyStr) : Bool :=
  if ! hasWordfreq then false
  else (pySplitWhitespace ngram).all fun w => decide ((5 : ℚ) < zipf w)

/-- `CrossSceneRepetitionResult` (repetition.py lines 24-29). -/
structure CrossSceneRepetitionResult where
  repeated_phrases : List PyStr := []
  repeated_count : ℕ := 0
  deriving Repr, DecidableEq

/-- Python's substring containment `p in q` on strings. -/
def isSubstr (p q : PyStr) : Bool := decide (p <:+: q)

/-- Lexicographic string order (Python `sorted(...)` on `str`). -/
def strLe : PyStr → PyStr → Bool
  | [], _ => true
  | _ :: _, [] => false
  | a :: as, b :: bs => if a < b then true else if a = b then strLe as bs else false

/-- Length-descending comparator modelling
`sorted(·, key=len, reverse=True)` (repetition.py line 97); equal lengths
compare true, keeping the stable order. -/
def lenGe (a b : PyStr) : Bool := decide (b.length ≤ a.length)

/-- One step of the substring-dedup loop (repetition.py lines 96-99):
keep `phrase` unless it occurs inside an already-kept phrase. -/
def dedupStep (deduplicated : List PyStr) (phrase : PyStr) : List PyStr :=
  if deduplicated.any (fun longer => isSubstr phrase longer) then deduplicated
  else deduplicated ++ [phrase]

/-- The dedup loop of `detect_cross_scene_repetition`
(repetition.py lines 96-99). -/
def dedupSubstrings (phrases : List PyStr) : List PyStr :=
  phrases.foldl dedupStep []

/-- The flagged shared-phrase list of `detect_cross_scene_repetition`
(repetition.py lines 80-92): intersect the current scene's n-grams with
the union of the prior scenes' n-grams, list them in sorted order
(`sorted(shared)`), and drop common collocations. -/
def crossSceneFlagged (hasWordfreq : Bool) (zipf : PyStr → ℚ)
    (current_prose : PyStr) (prior_scene_proses : List PyStr)
    (min_ngram max_ngram : ℕ) : List PyStr :=
  let current_ngrams := extract_ngrams current_prose min_ngram max_ngram
  let prior_ngrams := prior_scene_proses.foldl
    (fun acc p =>
      if pyStripWS p = [] then acc
      else acc.union (extract_ngrams p min_ngram max_ngram))
    ([] : List PyStr)
  let shared := current_ngrams.inter prior_ngrams
  (shared.mergeSort strLe).filter
    fun ng => ! is_common_collocation hasWordfreq zipf ng

/-- `detect_cross_scene_repetition` (repetition.py lines 60-104): empty
result when there are no prior scenes or the current prose is blank, else
the substring-deduplicated (longest-match-wins) list of length-descending
sorted flagged phrases, with its length as the count. -/
def detect_cross_scene_repetition (hasWordfreq : Bool) (zipf : PyStr → ℚ)
    (current_prose : PyStr) (prior_scene_proses : List PyStr)
    (min_ngram : ℕ := 4) (max_ngram : ℕ := 7) : CrossSceneRepetitionResult :=
  if prior_scene_proses = [] ∨ pyStripWS current_prose = [] then {}
  else
    let deduplicated := dedupSubstrings
      ((crossSceneFlagged hasWordfreq zipf current_prose prior_scene_proses
          min_ngram max_ngram).mergeSort lenGe)
    { repeated_phrases := deduplicated, repeated_count := deduplicated.length }

/-- Two phrases neither of which occurs inside the other. -/
def NoMutualInfix (p q : PyStr) : Prop := ¬ p <:+: q ∧ ¬ q <:+: p

/-- Example current-scene text sharing a verbatim five-word phrase with
`priorSceneEx`. -/
def curSceneEx : PyStr := "alpha bravo charlie delta echo xyz".toList

/-- Example prior-scene text. -/
def priorSceneEx : PyStr := "foo alpha bravo charlie delta echo bar".toList

/-- A shared four-word n-gram, contained in the shared five-word phrase. -/
def sharedPhraseEx : PyStr := "alpha bravo charlie delta".toList

/-! ## `utils/text_analysis/slop.py` — weighted slop detection -/

/-- `SlopConfig` (prompts/configs.py lines 96-102). -/
structure SlopConfig where
  phrase_penalty_scale : ℚ := 10
  word_excess_weight : ℚ := 3/10
  word_min_severity : ℚ := 1/2
  word_free_occurrences : ℤ := 1
  deriving Repr, DecidableEq

/-- A regex word character (`\w`), ASCII range — every text the claims
touch is ASCII. -/
def isWordChar (c : Char) : Bool := c.isAlphanum || c = '_'

/-- Word-character-ness of an optional adjacent character (text edges
count as non-word). -/
def optIsWord : Option Char → Bool
  | none => false
  | some c => isWordChar c

/-- The scanning loop of `pattern.findall(prose)` for the compiled pattern
`\b{re.escape(stripped)}\b` with `re.IGNORECASE` (slop.py lines 39 and
100): at each position try a case-insensitive literal match flanked by
word boundaries (`\b` holds where word-character-ness changes); on success
record the matched slice of the prose and resume after it (matches do not
overlap).  `fuel` bounds the recursion by the text length. -/
def reFindAllAux (phrase : PyStr) : ℕ → PyStr → Option Char → List PyStr
  | 0, _, _ => []
  | _ + 1, [], _ => []
  | fuel + 1, c :: cs, prev =>
    let cand := (c :: cs).take phrase.length
    if pyLower cand = pyLower phrase
        ∧ (optIsWord prev != optIsWord cand.head?) = true
        ∧ (optIsWord cand.getLast? != optIsWord ((c :: cs).drop phrase.length).head?) = true
    then cand :: reFindAllAux phrase fuel ((c :: cs).drop phrase.length) cand.getLast?
    else reFindAllAux phrase fuel cs (some c)

/-- `pattern.findall(prose)` for one compiled slop phrase. -/
def reFindAll (phrase prose : PyStr) : List PyStr :=
  reFindAllAux phrase (prose.length + 1) prose none

/-- The phrase-matching loop of `compute_slop_score` (slop.py
lines 95-104) fused with `_get_compiled_phrases` (slop.py lines 23-45):
for each table phrase, strip whitespace, skip it when shorter than 3
characters, scan the prose, drop matches whose lowercase form is in the
allowlist, and record each remaining match with the phrase's weight.  The
phrase table (vendored antislop data, loaded by `get_slop_phrases`) is a
parameter. -/
def slopRawMatches (table : List (PyStr × ℚ)) (prose : PyStr)
    (allowlist : List PyStr) : List (PyStr × ℚ) :=
  match table with
  | [] => []
  | pw :: rest =>
    let stripped := pyStripWS pw.1
    if stripped.length < 3 then slopRawMatches rest prose allowlist
    else
      ((reFindAll stripped prose).filter
          (fun m => ! allowlist.contains (pyLower m))).map (fun m => (m, pw.2))
        ++ slopRawMatches rest prose allowlist

/-- One entry of the `phrase_groups` dict (slop.py lines 107-114): the
lowercased key, occurrence count, maximum weight seen, and the first
matched text (the source's `example`). -/
structure SlopGroup where
  key : PyStr
  count : ℕ
  max_weight : ℚ
  first_match : PyStr
  deriving Repr, DecidableEq

/-- One step of the grouping loop of `compute_slop_score` (slop.py
lines 108-114): bump the existing group for the match's lowercased text
(count +1, weight maximum) or open a new group. -/
def slopGroupStep (groups : List SlopGroup) (mw : PyStr × ℚ) : List SlopGroup :=
  let key := pyLower mw.1
  if groups.any (fun g => g.key = key) then
    groups.map fun g =>
      if g.key = key then
        { g with count := g.count + 1, max_weight := max g.max_weight mw.2 }
      else g
  else groups ++ [{ key := key, count := 1, max_weight := mw.2,
                    first_match := mw.1 }]

/-- The grouping loop of `compute_slop_score` (slop.py lines 107-114):
group raw matches by lowercased text in first-seen order, tracking count
and maximum weight. -/
def slopGroups (raw : List (PyStr × ℚ)) : List SlopGroup :=
  raw.foldl slopGroupStep []

/-- `phrase_penalty` (slop.py lines 121-129): Σ count × max_weight over
the groups. -/
def slopPhrasePenalty (raw : List (PyStr × ℚ)) : ℚ :=
  ((slopGroups raw).map fun g => (g.count : ℚ) * g.max_weight).sum

/-- Characters stripped in the word-level scan (slop.py line 140):
`.,!?;:"'()-`. -/
def slopWordPunct : List Char :=
  ['.', ',', '!', '?', ';', ':', '"', '\'', '(', ')', '-']

/-- The lowercased punctuation-stripped prose words counted by the
word-level scan (slop.py lines 138-142). -/
def slopProseWords (prose : PyStr) : List PyStr :=
  ((pySplitWhitespace prose).map fun w => pyStrip slopWordPunct (pyLower w)).filter
    fun w => ! w.isEmpty

/-- The word-level scan (slop.py lines 144-151): for each non-allowlisted
table word, the excess occurrence count beyond the free allowance,
paired with the word's weight. -/
def slopWordEntries (slop_words : List (PyStr × ℚ)) (prose_words : List PyStr)
    (allowlist : List PyStr) (config : SlopConfig) : List (PyStr × ℤ × ℚ) :=
  (slop_words.filter fun sw => ! allowlist.contains (pyLower sw.1)).map
    fun sw =>
      (sw.1, ((prose_words.count (pyLower sw.1) : ℤ) - config.word_free_occurrences,
        sw.2))

/-- `word_penalty` (slop.py lines 148-151): Σ excess × word_excess_weight
× word_weight over entries with positive excess. -/
def slopWordPenalty (slop_words : List (PyStr × ℚ)) (prose_words : List PyStr)
    (allowlist : List PyStr) (config : SlopConfig) : ℚ :=
  (((slopWordEntries slop_words prose_words allowlist config).filter
      fun e => decide (0 < e.2.1)).map
    fun e => (e.2.1 : ℚ) * config.word_excess_weight * e.2.2).sum

/-- `weighted_penalty = phrase_penalty + word_penalty` (slop.py line 153).
`gw` stands for the vendored `get_slop_words` loader, a function of the
minimum severity. -/
def slopTotalPenalty (slop_phrases : List (PyStr × ℚ))
    (gw : ℚ → List (PyStr × ℚ)) (prose : PyStr) (allowlist : List PyStr)
    (config : SlopConfig) : ℚ :=
  slopPhrasePenalty (slopRawMatches slop_phrases prose allowlist)
    + slopWordPenalty (gw config.word_min_severity) (slopProseWords prose)
        allowlist config

/-- `SlopResult` (slop.py lines 48-65).  `found_phrases` keeps the
structured (first match, count, max weight) triples; the source renders
them as display strings, which carries no information used anywhere. -/
structure SlopResult where
  found_phrases : List (PyStr × ℕ × ℚ) := []
  total_words : ℕ := 0
  slop_ratio : ℚ := 1
  phrase_count : ℕ := 0
  unique_phrase_count : ℕ := 0
  found_words : List (PyStr × ℤ) := []
  weighted_penalty : ℚ := 0
  deriving Repr, DecidableEq

/-- `compute_slop_score` (slop.py lines 68-168): empty word list gives the
default result; otherwise group the allowlist-filtered phrase matches,
add the word-level excess penalty, and derive
`ratio = max(0, 1 - (weighted_penalty / total_words) * phrase_penalty_scale)`
rounded to two decimals.  The vendored phrase and word tables are
parameters (`slop_phrases` models `get_slop_phrases(min_severity=0.0)`,
`gw` models `get_slop_words`). -/
def compute_slop_score (slop_phrases : List (PyStr × ℚ))
    (gw : ℚ → List (PyStr × ℚ)) (prose : PyStr)
    (allowlist : List PyStr := []) (config : SlopConfig := {}) : SlopResult :=
  let words := pySplitWhitespace prose
  let total_words := words.length
  if total_words = 0 then {}
  else
    let raw_matches := slopRawMatches slop_phrases prose allowlist
    let phrase_groups := slopGroups raw_matches
    let sorted_groups :=
      phrase_groups.mergeSort fun a b => decide (b.max_weight ≤ a.max_weight)
    let weighted_penalty := slopTotalPenalty slop_phrases gw prose allowlist config
    let ratio :=
      max 0 (1 - (weighted_penalty / (total_words : ℚ)) * config.phrase_penalty_scale)
    { found_phrases := sorted_groups.map fun g => (g.first_match, g.count, g.max_weight),
      total_words := total_words,
      slop_ratio := pyRound2 ratio,
      phrase_count := (phrase_groups.map SlopGroup.count).sum,
      unique_phrase_count := phrase_groups.length,
      found_words := ((slopWordEntries (gw config.word_min_severity)
          (slopProseWords prose) allowlist config).filter
            fun e => decide (0 < e.2.1)).map fun e => (e.1, e.2.1),
      weighted_penalty := pyRound3 weighted_penalty }

/-- Example slop table containing one phrase that collides with a
character name. -/
def slopPhrasesEx : List (PyStr × ℚ) := [("Elara".toList, 9/10)]

/-- Empty word table (`get_slop_words` returning nothing). -/
def gwEmpty : ℚ → List (PyStr × ℚ) := fun _ => []

/-- Example prose mentioning the allowlisted character name. -/
def slopProseEx : PyStr := "Elara walked home".toList

/-- Example allowlist holding the lowercased character name. -/
def slopAllowEx : List PyStr := ["elara".toList]

/-! ## `pipelines/prototype.py` — control loop -/

/-- `SceneOutline` (schemas/structure.py): only the fields the control loop
and its tests touch; the prose-planning fields are free text and never read
by the decision logic. -/
structure SceneOutline where
  scene_id : String
  act_number : ℕ
  scene_number : ℕ
  deriving Repr, DecidableEq

/-- `ActOutline` (schemas/structure.py). -/
structure ActOutline where
  act_number : ℕ
  scenes : List SceneOutline := []
  deriving Repr, DecidableEq

/-- `StoryOutline` (schemas/structure.py). -/
structure StoryOutline where
  acts : List ActOutline := []
  deriving Repr, DecidableEq

/-- `EditFeedback` (schemas/editing.py lines 211-230): the fields read by
the control loop.  The free-text fields (`editor_name`, `edits`,
`overall_assessment`, `revision_instructions`, `confirmed_slop`) never
influence the decision function and are omitted. -/
structure EditFeedback where
  scene_id : String
  quality_score : ℚ := 0
  approved : Bool := false
  rubric : SceneRubric := {}
  deriving Repr, DecidableEq

/-- `GraphState` (prototype.py lines 25-42): a `TypedDict` with
`total=False`, so every key may be absent — modelled with `Option` fields
read through `.getD` (Python `state.get(key, default)`).  `min_revisions`
is not declared in the `TypedDict` but is placed into the runtime state
dict by `scripts/run_prototype.py` and the tests; it is carried here so
such states are representable.  The remaining keys (`user_prompt`,
`story_brief`, `character_roster`, `world_context`, `scene_drafts`,
`current_stage`, `errors`) are never read by the decision logic. -/
structure GraphState where
  edit_feedback : Option (List EditFeedback) := none
  revision_count : Option ℕ := none
  max_revisions : Option ℕ := none
  min_revisions : Option ℕ := none
  current_scene_index : Option ℕ := none
  story_outline : Option StoryOutline := none
  deriving Repr, DecidableEq

/-- `_get_total_scenes` (prototype.py lines 45-50): sum of scene counts
over all acts; 0 when the outline is absent. -/
def getTotalScenes (state : GraphState) : ℕ :=
  match state.story_outline with
  | none => 0
  | some outline => (outline.acts.map (fun act => act.scenes.length)).sum

/-- `should_revise_or_advance` (prototype.py lines 53-83).  The console
`print` of the dimension summary (lines 65-73) has no effect on the
returned decision and is elided. -/
def should_revise_or_advance (state : GraphState) : String :=
  match state.edit_feedback.getD [] with
  | [] => "complete"
  | f :: fs =>
    let latest_feedback := (f :: fs).getLast (by simp)
    let revision_count := state.revision_count.getD 0
    let max_revisions := state.max_revisions.getD 2
    let current_idx := state.current_scene_index.getD 0
    let total_scenes := getTotalScenes state
    if ¬ latest_feedback.approved ∧ revision_count < max_revisions then "revise"
    else if current_idx + 1 < total_scenes then "next_scene"
    else "complete"

/-- The state of the repository's own test
`test_force_revise_when_below_min_revisions`
(tests/pipelines/test_prototype.py lines 222-243): an approved all-4 draft,
`revision_count=0`, `max_revisions=2`, `min_revisions=1`, one scene. -/
def minRevisionsTestState : GraphState :=
  { edit_feedback :=
      some [{ scene_id := "s1", quality_score := 1, approved := true, rubric := rubricAllFours }],
    revision_count := some 0,
    max_revisions := some 2,
    min_revisions := some 1,
    current_scene_index := some 0,
    story_outline :=
      some { acts := [{ act_number := 1, scenes := [{ scene_id := "s1", act_number := 1, scene_number := 1 }] }] } }

/-! # Theorems -/

/-! ## Rounding helpers -/

/-- Evaluation helper: `pyRound2 q = n / 100` once `n ≤ q*100 + 1/2 < n+1`. -/
theorem pyRound2_eq_of (q : ℚ) (n : ℤ) (h1 : (n : ℚ) ≤ q * 100 + 1/2)
    (h2 : q * 100 + 1/2 < (n : ℚ) + 1) : pyRound2 q = (n : ℚ) / 100 := by
  unfold pyRound2
  rw [Int.floor_eq_iff.mpr ⟨h1, by exact_mod_cast h2⟩]

/-- `pyRound2` is monotone. -/
theorem pyRound2_mono {a b : ℚ} (h : a ≤ b) : pyRound2 a ≤ pyRound2 b := by
  unfold pyRound2
  have hfl : ⌊a * 100 + 1/2⌋ ≤ ⌊b * 100 + 1/2⌋ := by
    apply Int.floor_le_floor
    nlinarith
  have hc : ((⌊a * 100 + 1/2⌋ : ℤ) : ℚ) ≤ ((⌊b * 100 + 1/2⌋ : ℤ) : ℚ) := by
    exact_mod_cast hfl
  have h100 : (0:ℚ) < 100 := by norm_num
  exact (div_le_div_iff_of_pos_right h100).mpr hc

/-- The clamp-then-round pipeline shared by both quality-score monotonicity
directions. -/
theorem score_clamp_mono {x y : ℚ} (h : x ≤ y) :
    pyRound2 (max 0 (min 1 x)) ≤ pyRound2 (max 0 (min 1 y)) := by
  apply pyRound2_mono
  gcongr

/-- Comparing two rubrics' quality scores via their weighted sums and
advisory penalties. -/
theorem score_le_of {r r' : SceneRubric}
    (hws : r.weighted_sum ≤ r'.weighted_sum)
    (hpen : r'.advisory_penalty ≤ r.advisory_penalty) :
    r.compute_quality_score ≤ r'.compute_quality_score := by
  unfold SceneRubric.compute_quality_score
  apply score_clamp_mono
  linarith

/-! ## Rubric evaluations -/

/-- All-4 dimensions, clean flags: quality score is exactly 1.00. -/
theorem score_allFours : rubricAllFours.compute_quality_score = 1 := by
  unfold SceneRubric.compute_quality_score
  norm_num [rubricAllFours, SceneRubric.weighted_sum, SceneRubric.advisory_penalty,
    DIMENSION_WEIGHT, min_def, max_def]
  rw [pyRound2_eq_of 1 100 (by norm_num) (by norm_num)]
  norm_num

/-- All-3 dimensions, clean flags: quality score is exactly 0.67. -/
theorem score_allThrees : rubricAllThrees.compute_quality_score = 67/100 := by
  unfold SceneRubric.compute_quality_score
  norm_num [rubricAllThrees, SceneRubric.weighted_sum, SceneRubric.advisory_penalty,
    DIMENSION_WEIGHT, min_def, max_def]
  rw [pyRound2_eq_of (2/3) 67 (by norm_num) (by norm_num)]
  norm_num

/-- All-4 dimensions with both gates clean: approved. -/
theorem approved_allFours : rubricAllFours.compute_approved = true := by
  unfold SceneRubric.compute_approved
  rw [score_allFours]
  norm_num [APPROVE_THRESHOLD, SceneRubric.has_critical_failure, rubricAllFours]

/-- All-3 dimensions: not approved (0.67 < 0.70). -/
theorem approved_allThrees : rubricAllThrees.compute_approved = false := by
  unfold SceneRubric.compute_approved
  rw [score_allThrees]
  norm_num [APPROVE_THRESHOLD]

/-! ## Claim C2 -/

/-- C2: `compute_approved` is true iff the quality score is at least 0.70,
no dimension is at the minimum (≤ 1), and both deterministic gates hold;
in particular a dimension equal to 1 forces `false`, and a failed word-count
or tense gate forces `false`. -/
theorem claim_C2_approved_characterization (r : SceneRubric) :
    (r.compute_approved = true ↔
      (APPROVE_THRESHOLD ≤ r.compute_quality_score
        ∧ (1 < r.style_adherence ∧ 1 < r.character_voice
            ∧ 1 < r.outline_adherence ∧ 1 < r.pacing ∧ 1 < r.prose_quality)
        ∧ r.word_count_in_range = true ∧ r.tense_consistent = true))
    ∧ ((r.style_adherence = 1 ∨ r.character_voice = 1 ∨ r.outline_adherence = 1
          ∨ r.pacing = 1 ∨ r.prose_quality = 1) → r.compute_approved = false)
    ∧ (r.word_count_in_range = false → r.compute_approved = false)
    ∧ (r.tense_consistent = false → r.compute_approved = false) := by
  have hiff : r.compute_approved = true ↔
      (APPROVE_THRESHOLD ≤ r.compute_quality_score
        ∧ (1 < r.style_adherence ∧ 1 < r.character_voice
            ∧ 1 < r.outline_adherence ∧ 1 < r.pacing ∧ 1 < r.prose_quality)
        ∧ r.word_count_in_range = true ∧ r.tense_consistent = true) := by
    unfold SceneRubric.compute_approved SceneRubric.has_critical_failure
    simp only [Bool.and_eq_true, Bool.not_eq_true', Bool.or_eq_false_iff,
      decide_eq_true_eq, decide_eq_false_iff_not, not_le]
    tauto
  refine ⟨hiff, ?_, ?_, ?_⟩
  · intro hdim
    rw [← Bool.not_eq_true, hiff]
    rintro ⟨-, ⟨h1, h2, h3, h4, h5⟩, -, -⟩
    rcases hdim with h | h | h | h | h <;> omega
  · intro hw
    rw [← Bool.not_eq_true, hiff]
    rintro ⟨-, -, hw', -⟩
    rw [hw] at hw'
    exact Bool.false_ne_true hw'
  · intro ht
    rw [← Bool.not_eq_true, hiff]
    rintro ⟨-, -, -, ht'⟩
    rw [ht] at ht'
    exact Bool.false_ne_true ht'

/-- Witness for C2 at concrete inputs: a failed word-count gate on an
otherwise perfect rubric forces rejection. -/
theorem claim_C2_approved_characterization_witness :
    rubricWordFail.compute_approved = false :=
  (claim_C2_approved_characterization rubricWordFail).2.2.1 rfl

/-! ## Claim C3 -/

/-- C3: `compute_quality_score` is monotone — raising any single dimension
(all other fields fixed) never decreases the score, and flipping any single
advisory flag from false to true (all other fields fixed) never increases
it. -/
theorem claim_C3_score_monotonicity (r : SceneRubric) :
    ((∀ v, r.style_adherence ≤ v →
        r.compute_quality_score ≤ ({r with style_adherence := v} : SceneRubric).compute_quality_score)
      ∧ (∀ v, r.character_voice ≤ v →
        r.compute_quality_score ≤ ({r with character_voice := v} : SceneRubric).compute_quality_score)
      ∧ (∀ v, r.outline_adherence ≤ v →
        r.compute_quality_score ≤ ({r with outline_adherence := v} : SceneRubric).compute_quality_score)
      ∧ (∀ v, r.pacing ≤ v →
        r.compute_quality_score ≤ ({r with pacing := v} : SceneRubric).compute_quality_score)
      ∧ (∀ v, r.prose_quality ≤ v →
        r.compute_quality_score ≤ ({r with prose_quality := v} : SceneRubric).compute_quality_score))
    ∧ (({r with opener_monotony := true} : SceneRubric).compute_quality_score
          ≤ ({r with opener_monotony := false} : SceneRubric).compute_quality_score
        ∧ ({r with length_monotony := true} : SceneRubric).compute_quality_score
          ≤ ({r with length_monotony := false} : SceneRubric).compute_quality_score
        ∧ ({r with passive_heavy := true} : SceneRubric).compute_quality_score
          ≤ ({r with passive_heavy := false} : SceneRubric).compute_quality_score
        ∧ ({r with structural_monotony := true} : SceneRubric).compute_quality_score
          ≤ ({r with structural_monotony := false} : SceneRubric).compute_quality_score
        ∧ ({r with low_diversity := true} : SceneRubric).compute_quality_score
          ≤ ({r with low_diversity := false} : SceneRubric).compute_quality_score
        ∧ ({r with vocabulary_basic := true} : SceneRubric).compute_quality_score
          ≤ ({r with vocabulary_basic := false} : SceneRubric).compute_quality_score) := by
  have hw : (0:ℚ) ≤ DIMENSION_WEIGHT := by norm_num [DIMENSION_WEIGHT]
  constructor
  · refine ⟨?_, ?_, ?_, ?_, ?_⟩ <;>
      · intro v h
        apply score_le_of
        · simp only [SceneRubric.weighted_sum]
          gcongr <;> first
            | exact_mod_cast h
            | norm_num [DIMENSION_WEIGHT]
        · exact le_of_eq rfl
  · refine ⟨?_, ?_, ?_, ?_, ?_, ?_⟩ <;>
      · apply score_le_of
        · exact le_of_eq rfl
        · simp only [SceneRubric.advisory_penalty]
          gcongr <;> norm_num

/-- Witness for C3 at a concrete input: raising `style_adherence` from 3
to 4 does not decrease the quality score. -/
theorem claim_C3_score_monotonicity_witness :
    rubricAllThrees.compute_quality_score ≤
      ({rubricAllThrees with style_adherence := 4} : SceneRubric).compute_quality_score :=
  (claim_C3_score_monotonicity rubricAllThrees).1.1 4 (by decide)

/-! ## Claim C4 -/

/-- C4: boundary values — all dimensions 4, clean flags and gates gives
score 1.00 and approval; all dimensions 3 gives score 0.67 and no
approval. -/
theorem claim_C4_boundary_scores :
    rubricAllFours.compute_quality_score = 1
      ∧ rubricAllFours.compute_approved = true
      ∧ rubricAllThrees.compute_quality_score = 67/100
      ∧ rubricAllThrees.compute_approved = false :=
  ⟨score_allFours, approved_allFours, score_allThrees, approved_allThrees⟩

/-! ## Claim C5 -/

/-- C5: the advisory penalty is bounded — with all dimensions at 4 and no
cross-scene repetitions, raising all six advisory flags lowers the score
by exactly 0.18 (whatever the deterministic-gate fields are); and
`cross_scene_repetitions = 5` scores the same as `= 3` (the cross-scene
penalty is capped). -/
theorem claim_C5_advisory_penalty_bounds :
    (∀ (w t : Bool) (s : ℚ),
      (rubricCleanWith w t s).compute_quality_score
        - (rubricFlaggedWith w t s).compute_quality_score = 18/100)
    ∧ ∀ r : SceneRubric,
        ({r with cross_scene_repetitions := 5} : SceneRubric).compute_quality_score
          = ({r with cross_scene_repetitions := 3} : SceneRubric).compute_quality_score := by
  constructor
  · intro w t s
    have h1 : (rubricCleanWith w t s).compute_quality_score = 1 := by
      unfold SceneRubric.compute_quality_score
      norm_num [rubricCleanWith, SceneRubric.weighted_sum, SceneRubric.advisory_penalty,
        DIMENSION_WEIGHT, min_def, max_def]
      rw [pyRound2_eq_of 1 100 (by norm_num) (by norm_num)]
      norm_num
    have h2 : (rubricFlaggedWith w t s).compute_quality_score = 82/100 := by
      unfold SceneRubric.compute_quality_score
      norm_num [rubricFlaggedWith, rubricCleanWith, SceneRubric.weighted_sum,
        SceneRubric.advisory_penalty, DIMENSION_WEIGHT, min_def, max_def]
      rw [pyRound2_eq_of (41/50) 82 (by norm_num) (by norm_num)]
      norm_num
    rw [h1, h2]
    norm_num
  · intro r
    have hpen : ({r with cross_scene_repetitions := 5} : SceneRubric).advisory_penalty
        = ({r with cross_scene_repetitions := 3} : SceneRubric).advisory_penalty := by
      simp only [SceneRubric.advisory_penalty]
      norm_num [min_def]
    have hws : ({r with cross_scene_repetitions := 5} : SceneRubric).weighted_sum
        = ({r with cross_scene_repetitions := 3} : SceneRubric).weighted_sum := rfl
    simp only [SceneRubric.compute_quality_score]
    rw [hpen, hws]

/-! ## Claim C1 -/

/-- C1: the decision function does not implement the forced-minimum
revision rule.  On the repository's own forced-polish test state (approved
all-4 first draft, `revision_count=0`, `min_revisions=1`, one scene) it
returns "complete", not the "revise" required by the spec, the
`PrototypeConfig.min_revisions` comment and
`test_force_revise_when_below_min_revisions`. -/
theorem claim_C1_min_revisions_not_enforced :
    should_revise_or_advance minRevisionsTestState = "complete"
      ∧ should_revise_or_advance minRevisionsTestState ≠ "revise" := by
  constructor
  · decide
  · decide

/-! ## Claim C10 -/

/-- C10: with an empty or absent `edit_feedback` list the decision function
returns "complete" — it never revises or advances without at least one
feedback record, whatever the counters and outline hold. -/
theorem claim_C10_empty_feedback_completes (state : GraphState)
    (h : state.edit_feedback = none ∨ state.edit_feedback = some []) :
    should_revise_or_advance state = "complete" := by
  unfold should_revise_or_advance
  rcases h with h | h <;> rw [h] <;> rfl

/-- Witness for C10: the empty pipeline state. -/
theorem claim_C10_empty_feedback_completes_witness :
    should_revise_or_advance {} = "complete" :=
  claim_C10_empty_feedback_completes {} (Or.inl rfl)

/-! ## Claim C6 -/

/-- C6: word-count boundary — at target 1000 and tolerance 0.25, a
1250-word text is within tolerance (inclusive boundary), a 1251-word text
is not, and a non-positive target is always within tolerance. -/
theorem claim_C6_word_count_boundary :
    (∀ prose : PyStr, (pySplitWhitespace prose).length = 1250 →
        (check_word_count prose 1000 (1/4)).within_tolerance = true)
    ∧ (∀ prose : PyStr, (pySplitWhitespace prose).length = 1251 →
        (check_word_count prose 1000 (1/4)).within_tolerance = false)
    ∧ ∀ (prose : PyStr) (target : ℤ) (tol : ℚ), target ≤ 0 →
        (check_word_count prose target tol).within_tolerance = true := by
  refine ⟨?_, ?_, ?_⟩
  · intro prose h
    simp only [check_word_count, h]
    norm_num [abs_le]
  · intro prose h
    simp only [check_word_count, h]
    norm_num [abs_le]
  · intro prose target tol h
    simp only [check_word_count]
    rw [if_pos h]

set_option maxRecDepth 100000 in
/-- Witness for C6 at concrete texts of 1250, 1251 and 7 words. -/
theorem claim_C6_word_count_boundary_witness :
    (check_word_count (wordsText 1250) 1000 (1/4)).within_tolerance = true
      ∧ (check_word_count (wordsText 1251) 1000 (1/4)).within_tolerance = false
      ∧ (check_word_count (wordsText 7) 0 (1/4)).within_tolerance = true :=
  ⟨claim_C6_word_count_boundary.1 (wordsText 1250) (by decide),
   claim_C6_word_count_boundary.2.1 (wordsText 1251) (by decide),
   claim_C6_word_count_boundary.2.2 (wordsText 7) 0 (1/4) (by decide)⟩

/-! ## Claim C9 -/

/-- C9: tense classification from the tagged verb-token counts — dominant
tense is the class with more tokens (ties to past), the minority ratio is
the smaller of the two ratios, consistency holds iff the minority ratio is
at most the threshold, and zero counts give "unknown"/consistent. -/
theorem claim_C9_tense_classification (past present : ℕ) (threshold : ℚ) :
    (past + present = 0 →
      tenseVerdict past present threshold
        = { dominant_tense := "unknown", consistent := true })
    ∧ (0 < past + present →
        (tenseVerdict past present threshold).dominant_tense
            = (if present ≤ past then "past" else "present")
          ∧ (tenseVerdict past present threshold).minority_ratio
            = pyRound3 (min ((past : ℚ) / ((past : ℚ) + present))
                ((present : ℚ) / ((past : ℚ) + present)))
          ∧ ((tenseVerdict past present threshold).consistent = true ↔
              min ((past : ℚ) / ((past : ℚ) + present))
                ((present : ℚ) / ((past : ℚ) + present)) ≤ threshold)) := by
  constructor
  · intro h
    unfold tenseVerdict
    rw [if_pos h]
  · intro h
    have htot : (0:ℚ) < ((past + present : ℕ) : ℚ) := by exact_mod_cast h
    have hcast : ((past + present : ℕ) : ℚ) = (past : ℚ) + present := by push_cast; ring
    unfold tenseVerdict
    rw [if_neg (by omega)]
    rcases le_or_lt present past with hc | hc
    · have hra : (present : ℚ) / ((past + present : ℕ) : ℚ)
          ≤ (past : ℚ) / ((past + present : ℕ) : ℚ) := by
        apply (div_le_div_iff_of_pos_right htot).mpr
        exact_mod_cast hc
      have hmin : min ((past : ℚ) / ((past : ℚ) + present))
          ((present : ℚ) / ((past : ℚ) + present))
          = (present : ℚ) / ((past + present : ℕ) : ℚ) := by
        rw [hcast] at hra ⊢
        exact min_eq_right hra
      refine ⟨?_, ?_, ?_⟩
      · simp only [if_pos hra, if_pos hc]
      · simp only [if_pos hra, hmin]
      · simp only [if_pos hra, hmin, decide_eq_true_eq]
    · have hra : (past : ℚ) / ((past + present : ℕ) : ℚ)
          < (present : ℚ) / ((past + present : ℕ) : ℚ) := by
        apply div_lt_div_of_pos_right ?_ htot
        exact_mod_cast hc
      have hmin : min ((past : ℚ) / ((past : ℚ) + present))
          ((present : ℚ) / ((past : ℚ) + present))
          = (past : ℚ) / ((past + present : ℕ) : ℚ) := by
        rw [hcast] at hra ⊢
        exact min_eq_left hra.le
      refine ⟨?_, ?_, ?_⟩
      · simp only [if_neg (not_le.mpr hra), if_neg (not_le.mpr hc)]
      · simp only [if_neg (not_le.mpr hra), hmin]
      · simp only [if_neg (not_le.mpr hra), hmin, decide_eq_true_eq]

/-- Witness for C9: nine past-tense tokens against one present-tense token
at the default threshold classify as consistent past narration. -/
theorem claim_C9_tense_classification_witness :
    (tenseVerdict 9 1 (15/100)).dominant_tense = "past" := by
  have h := (claim_C9_tense_classification 9 1 (15/100)).2 (by norm_num)
  rw [h.1]
  norm_num

/-! ## Claim C8 -/

/-- The dedup step keeps the accumulator when the phrase is already
covered. -/
theorem dedupStep_of_any_true {acc : List PyStr} {p : PyStr}
    (h : acc.any (fun longer => isSubstr p longer) = true) :
    dedupStep acc p = acc := by
  unfold dedupStep
  rw [if_pos h]

/-- The dedup step appends the phrase when it is not covered yet. -/
theorem dedupStep_of_any_false {acc : List PyStr} {p : PyStr}
    (h : acc.any (fun longer => isSubstr p longer) = false) :
    dedupStep acc p = acc ++ [p] := by
  unfold dedupStep
  rw [if_neg (by simp [h])]

/-- Phrases already kept by the dedup loop survive the rest of it. -/
theorem mem_foldl_dedupStep (l : List PyStr) :
    ∀ (acc : List PyStr) (q : PyStr), q ∈ acc → q ∈ l.foldl dedupStep acc := by
  induction l with
  | nil =>
    intro acc q h
    simpa using h
  | cons p rest ih =>
    intro acc q h
    simp only [List.foldl_cons]
    by_cases htest : acc.any (fun longer => isSubstr p longer) = true
    · rw [dedupStep_of_any_true htest]
      exact ih acc q h
    · rw [dedupStep_of_any_false (Bool.eq_false_iff.mpr htest)]
      exact ih (acc ++ [p]) q (List.mem_append_left _ h)

/-- Every phrase fed to the dedup loop is contained in some kept phrase. -/
theorem foldl_dedupStep_cover (l : List PyStr) :
    ∀ (acc : List PyStr) (p : PyStr), p ∈ l →
      ∃ q ∈ l.foldl dedupStep acc, p <:+: q := by
  induction l with
  | nil =>
    intro acc p h
    simp at h
  | cons hd rest ih =>
    intro acc p h
    simp only [List.foldl_cons]
    by_cases htest : acc.any (fun longer => isSubstr hd longer) = true
    · rw [dedupStep_of_any_true htest]
      rcases List.mem_cons.mp h with rfl | hmem
      · rcases List.any_eq_true.mp htest with ⟨q, hq, hiq⟩
        exact ⟨q, mem_foldl_dedupStep rest acc q hq, of_decide_eq_true hiq⟩
      · exact ih acc p hmem
    · rw [dedupStep_of_any_false (Bool.eq_false_iff.mpr htest)]
      rcases List.mem_cons.mp h with rfl | hmem
      · exact ⟨p, mem_foldl_dedupStep rest _ p (by simp), List.infix_rfl⟩
      · exact ih (acc ++ [hd]) p hmem

/-- With a length-descending input the dedup loop keeps a duplicate-free
list in which no phrase occurs inside another. -/
theorem foldl_dedupStep_good (l : List PyStr) :
    ∀ acc : List PyStr,
      l.Pairwise (fun a b => b.length ≤ a.length) →
      (∀ a ∈ acc, ∀ b ∈ l, b.length ≤ a.length) →
      acc.Pairwise NoMutualInfix → acc.Nodup →
      (l.foldl dedupStep acc).Pairwise NoMutualInfix
        ∧ (l.foldl dedupStep acc).Nodup := by
  induction l with
  | nil =>
    intro acc _ _ hp hn
    exact ⟨hp, hn⟩
  | cons hd rest ih =>
    intro acc hsort hlen hp hn
    have hsort' := (List.pairwise_cons.mp hsort).2
    have hhd := (List.pairwise_cons.mp hsort).1
    simp only [List.foldl_cons]
    by_cases htest : acc.any (fun longer => isSubstr hd longer) = true
    · rw [dedupStep_of_any_true htest]
      exact ih acc hsort'
        (fun a ha b hb => hlen a ha b (List.mem_cons_of_mem _ hb)) hp hn
    · have htest' : acc.any (fun longer => isSubstr hd longer) = false :=
        Bool.eq_false_iff.mpr htest
      rw [dedupStep_of_any_false htest']
      have hno : ∀ x ∈ acc, ¬ hd <:+: x := by
        intro x hx
        have := List.any_eq_false.mp htest' x hx
        simpa [isSubstr] using this
      have hnotmem : hd ∉ acc := by
        intro hmem
        exact hno hd hmem List.infix_rfl
      apply ih (acc ++ [hd]) hsort'
      · intro a ha b hb
        rcases List.mem_append.mp ha with ha | ha
        · exact hlen a ha b (List.mem_cons_of_mem _ hb)
        · have : a = hd := by simpa using ha
          subst this
          exact hhd b hb
      · rw [List.pairwise_append]
        refine ⟨hp, by simp, ?_⟩
        intro a ha b hb
        have hb' : b = hd := by simpa using hb
        rw [hb']
        constructor
        · intro hinf
          have h2 : hd.length ≤ a.length := hlen a ha hd (List.mem_cons_self _ _)
          have : a = hd := hinf.eq_of_length_le h2
          exact hnotmem (this ▸ ha)
        · exact hno a ha
      · rw [List.nodup_append]
        exact ⟨hn, List.nodup_singleton hd, by simpa using hnotmem⟩

/-- C8: cross-scene repetition — no prior scenes gives the empty result;
the reported count is the length of the deduplicated list; the reported
list has no duplicates and no phrase contained in another (shorter flagged
n-grams inside longer ones are discarded); and every flagged shared
phrase is contained in some reported phrase (longest match wins). -/
theorem claim_C8_cross_scene_dedup (hasWF : Bool) (zipf : PyStr → ℚ)
    (cur : PyStr) (priors : List PyStr) (minn maxn : ℕ) :
    (detect_cross_scene_repetition hasWF zipf cur [] minn maxn
        = { repeated_phrases := [], repeated_count := 0 })
    ∧ ((detect_cross_scene_repetition hasWF zipf cur priors minn maxn).repeated_count
        = (detect_cross_scene_repetition hasWF zipf cur priors minn
            maxn).repeated_phrases.length)
    ∧ (detect_cross_scene_repetition hasWF zipf cur priors minn
        maxn).repeated_phrases.Nodup
    ∧ (detect_cross_scene_repetition hasWF zipf cur priors minn
        maxn).repeated_phrases.Pairwise NoMutualInfix
    ∧ ∀ p ∈ crossSceneFlagged hasWF zipf cur priors minn maxn,
        priors ≠ [] → pyStripWS cur ≠ [] →
        ((detect_cross_scene_repetition hasWF zipf cur priors minn
            maxn).repeated_phrases.any fun q => isSubstr p q) = true := by
  have hsorted : ∀ fl : List PyStr,
      (fl.mergeSort lenGe).Pairwise (fun a b => b.length ≤ a.length) := by
    intro fl
    have h := @List.sorted_mergeSort PyStr lenGe
      (fun a b c h1 h2 => by
        simp only [lenGe, decide_eq_true_eq] at *
        omega)
      (fun a b => by
        simp only [lenGe, Bool.or_eq_true, decide_eq_true_eq]
        omega)
      fl
    exact h.imp fun {a b} hab => by
      simpa [lenGe] using hab
  refine ⟨?_, ?_, ?_, ?_, ?_⟩
  · unfold detect_cross_scene_repetition
    rw [if_pos (Or.inl rfl)]
  · unfold detect_cross_scene_repetition
    split <;> rfl
  · unfold detect_cross_scene_repetition
    split
    · simp
    · exact (foldl_dedupStep_good _ [] (hsorted _) (by simp)
        List.Pairwise.nil List.nodup_nil).2
  · unfold detect_cross_scene_repetition
    split
    · simp
    · exact (foldl_dedupStep_good _ [] (hsorted _) (by simp)
        List.Pairwise.nil List.nodup_nil).1
  · intro p hp hpriors hcur
    unfold detect_cross_scene_repetition
    rw [if_neg (by simp [hpriors, hcur])]
    have hmem : p ∈ (crossSceneFlagged hasWF zipf cur priors minn
        maxn).mergeSort lenGe :=
      (List.mergeSort_perm _ lenGe).mem_iff.mpr hp
    rcases foldl_dedupStep_cover _ [] p hmem with ⟨q, hq, hinf⟩
    exact List.any_eq_true.mpr ⟨q, hq, decide_eq_true hinf⟩

set_option maxRecDepth 10000 in
/-- Witness for C8: the flagged four-word n-gram shared between the two
example scenes is contained in some reported phrase. -/
theorem claim_C8_cross_scene_dedup_witness :
    ((detect_cross_scene_repetition false (fun _ => 0) curSceneEx
        [priorSceneEx] 4 7).repeated_phrases.any
      fun q => isSubstr sharedPhraseEx q) = true :=
  (claim_C8_cross_scene_dedup false (fun _ => 0) curSceneEx [priorSceneEx]
      4 7).2.2.2.2 sharedPhraseEx
    (by
      simp only [crossSceneFlagged, List.mem_filter]
      refine ⟨(List.mergeSort_perm _ _).mem_iff.mpr ?_, ?_⟩
      · decide
      · decide)
    (by decide) (by decide)

/-! ## Claim C7 -/

/-- `pyRound2` fixes 0. -/
theorem pyRound2_zero : pyRound2 0 = 0 := by
  rw [pyRound2_eq_of 0 0 (by norm_num) (by norm_num)]
  norm_num

/-- `pyRound2` fixes 1. -/
theorem pyRound2_one : pyRound2 1 = 1 := by
  rw [pyRound2_eq_of 1 100 (by norm_num) (by norm_num)]
  norm_num

/-- Every match the scanner returns lowercases to the scanned phrase. -/
theorem reFindAllAux_lower (phrase : PyStr) :
    ∀ (fuel : ℕ) (rest : PyStr) (prev : Option Char) (m : PyStr),
      m ∈ reFindAllAux phrase fuel rest prev → pyLower m = pyLower phrase := by
  intro fuel
  induction fuel with
  | zero =>
    intro rest prev m h
    simp [reFindAllAux] at h
  | succ f ih =>
    intro rest prev m h
    match rest with
    | [] => simp [reFindAllAux] at h
    | c :: cs =>
      rw [reFindAllAux] at h
      split at h
      · rename_i hcond
        rcases List.mem_cons.mp h with rfl | h'
        · exact hcond.1
        · exact ih _ _ m h'
      · exact ih _ _ m h

/-- Every match of `reFindAll` lowercases to the phrase. -/
theorem reFindAll_lower {phrase prose m : PyStr} (h : m ∈ reFindAll phrase prose) :
    pyLower m = pyLower phrase :=
  reFindAllAux_lower phrase _ _ _ m h

/-- Every raw-match weight comes from some table entry. -/
theorem slopRawMatches_weight (table : List (PyStr × ℚ)) (prose : PyStr)
    (allowlist : List PyStr) :
    ∀ mw ∈ slopRawMatches table prose allowlist, ∃ pw ∈ table, mw.2 = pw.2 := by
  induction table with
  | nil =>
    intro mw h
    simp [slopRawMatches] at h
  | cons pw rest ih =>
    intro mw h
    rw [slopRawMatches] at h
    split at h
    · rcases ih mw h with ⟨pw', hpw', he⟩
      exact ⟨pw', List.mem_cons_of_mem _ hpw', he⟩
    · rcases List.mem_append.mp h with h' | h'
      · rcases List.mem_map.mp h' with ⟨m, _, rfl⟩
        exact ⟨pw, List.mem_cons_self _ _, rfl⟩
      · rcases ih mw h' with ⟨pw', hpw', he⟩
        exact ⟨pw', List.mem_cons_of_mem _ hpw', he⟩

/-- Dropping the table phrases whose stripped lowercase form is in the
allowlist does not change the raw matches: each of their matches is
discarded by the allowlist filter anyway. -/
theorem slopRawMatches_filter_allowlist (table : List (PyStr × ℚ))
    (prose : PyStr) (allowlist : List PyStr) :
    slopRawMatches
        (table.filter fun pw => ! allowlist.contains (pyLower (pyStripWS pw.1)))
        prose allowlist
      = slopRawMatches table prose allowlist := by
  induction table with
  | nil => rfl
  | cons pw rest ih =>
    rw [List.filter_cons]
    by_cases hal : pyLower (pyStripWS pw.1) ∈ allowlist
    · rw [if_neg (by simp [hal])]
      rw [ih]
      conv_rhs => rw [slopRawMatches]
      split
      · rfl
      · have hfilter : (reFindAll (pyStripWS pw.1) prose).filter
            (fun m => ! allowlist.contains (pyLower m)) = [] := by
          rw [List.filter_eq_nil_iff]
          intro m hm
          simp [reFindAll_lower hm, hal]
        rw [hfilter]
        rfl
    · rw [if_pos (by simp [hal])]
      rw [slopRawMatches, slopRawMatches, ih]

/-- Group weights stay nonnegative when the raw-match weights are. -/
theorem foldl_slopGroupStep_nonneg (raw : List (PyStr × ℚ)) :
    ∀ acc : List SlopGroup, (∀ mw ∈ raw, 0 ≤ mw.2) →
      (∀ g ∈ acc, 0 ≤ g.max_weight) →
      ∀ g ∈ raw.foldl slopGroupStep acc, 0 ≤ g.max_weight := by
  induction raw with
  | nil =>
    intro acc _ hacc g hg
    exact hacc g hg
  | cons mw rest ih =>
    intro acc hraw hacc g hg
    simp only [List.foldl_cons] at hg
    refine ih (slopGroupStep acc mw) (fun x hx => hraw x (List.mem_cons_of_mem _ hx))
      ?_ g hg
    intro g' hg'
    simp only [slopGroupStep] at hg'
    split at hg'
    · rcases List.mem_map.mp hg' with ⟨g0, hg0, rfl⟩
      by_cases hk : g0.key = pyLower mw.1
      · simp only [if_pos hk]
        exact le_max_of_le_left (hacc g0 hg0)
      · simp only [if_neg hk]
        exact hacc g0 hg0
    · rcases List.mem_append.mp hg' with h' | h'
      · exact hacc g' h'
      · have he : g' = ⟨pyLower mw.1, 1, mw.2, mw.1⟩ := by simpa using h'
        rw [he]
        exact hraw mw (List.mem_cons_self _ _)

/-- The phrase penalty is nonnegative when the raw-match weights are. -/
theorem slopPhrasePenalty_nonneg (raw : List (PyStr × ℚ))
    (hraw : ∀ mw ∈ raw, 0 ≤ mw.2) : 0 ≤ slopPhrasePenalty raw := by
  unfold slopPhrasePenalty
  apply List.sum_nonneg
  intro x hx
  rcases List.mem_map.mp hx with ⟨g, hg, rfl⟩
  have hw := foldl_slopGroupStep_nonneg raw [] hraw (by simp) g hg
  positivity

/-- The word penalty is nonnegative when the word-table weights and the
excess weight are. -/
theorem slopWordPenalty_nonneg (slop_words : List (PyStr × ℚ))
    (prose_words : List PyStr) (allowlist : List PyStr) (config : SlopConfig)
    (hw : ∀ sw ∈ slop_words, 0 ≤ sw.2)
    (hwew : 0 ≤ config.word_excess_weight) :
    0 ≤ slopWordPenalty slop_words prose_words allowlist config := by
  unfold slopWordPenalty
  apply List.sum_nonneg
  intro x hx
  rcases List.mem_map.mp hx with ⟨e, he, rfl⟩
  have he' := List.mem_filter.mp he
  have hex : (0 : ℤ) < e.2.1 := by
    have := he'.2
    simpa using this
  rcases List.mem_map.mp he'.1 with ⟨sw, hsw, rfl⟩
  have hsw' := (List.mem_filter.mp hsw).1
  have h2 : (0 : ℚ) ≤ ((prose_words.count (pyLower sw.1) : ℤ)
      - config.word_free_occurrences : ℤ) := by
    exact_mod_cast hex.le
  have h3 : 0 ≤ sw.2 := hw sw hsw'
  positivity

/-- No surviving raw match is allowlisted: the allowlist filter discards
every match whose lowercase form it contains. -/
theorem slopRawMatches_not_allowlisted (table : List (PyStr × ℚ))
    (prose : PyStr) (allowlist : List PyStr) :
    ∀ mw ∈ slopRawMatches table prose allowlist, pyLower mw.1 ∉ allowlist := by
  induction table with
  | nil =>
    intro mw h
    simp [slopRawMatches] at h
  | cons pw rest ih =>
    intro mw h
    rw [slopRawMatches] at h
    split at h
    · exact ih mw h
    · rcases List.mem_append.mp h with h' | h'
      · rcases List.mem_map.mp h' with ⟨m, hm, rfl⟩
        have := (List.mem_filter.mp hm).2
        simpa using this
      · exact ih mw h'

/-- C7: the slop ratio is exactly
`max(0, 1 - (weighted_penalty / total_words) * penalty_scale)` rounded to
two decimals, stays in [0,1] whenever the table weights and configured
scales are nonnegative, and allowlisted matches contribute nothing: no
surviving match is allowlisted, and the result equals the one computed
with the allowlisted phrases removed from the table. -/
theorem claim_C7_slop_ratio_and_allowlist (slop_phrases : List (PyStr × ℚ))
    (gw : ℚ → List (PyStr × ℚ)) (prose : PyStr) (allowlist : List PyStr)
    (config : SlopConfig)
    (hph : ∀ pw ∈ slop_phrases, 0 ≤ pw.2)
    (hwt : ∀ pw ∈ gw config.word_min_severity, 0 ≤ pw.2)
    (hscale : 0 ≤ config.phrase_penalty_scale)
    (hwew : 0 ≤ config.word_excess_weight)
    (hwords : (pySplitWhitespace prose).length ≠ 0) :
    ((compute_slop_score slop_phrases gw prose allowlist config).slop_ratio
        = pyRound2 (max 0 (1
            - (slopTotalPenalty slop_phrases gw prose allowlist config
                / ((pySplitWhitespace prose).length : ℚ))
              * config.phrase_penalty_scale)))
      ∧ 0 ≤ (compute_slop_score slop_phrases gw prose allowlist config).slop_ratio
      ∧ (compute_slop_score slop_phrases gw prose allowlist config).slop_ratio ≤ 1
      ∧ (∀ mw ∈ slopRawMatches slop_phrases prose allowlist,
          pyLower mw.1 ∉ allowlist)
      ∧ compute_slop_score slop_phrases gw prose allowlist config
        = compute_slop_score
            (slop_phrases.filter
              fun pw => ! allowlist.contains (pyLower (pyStripWS pw.1)))
            gw prose allowlist config := by
  have hraw : ∀ mw ∈ slopRawMatches slop_phrases prose allowlist, 0 ≤ mw.2 := by
    intro mw hm
    rcases slopRawMatches_weight slop_phrases prose allowlist mw hm with ⟨pw, hpw, he⟩
    exact he ▸ hph pw hpw
  have hpen : 0 ≤ slopTotalPenalty slop_phrases gw prose allowlist config :=
    add_nonneg (slopPhrasePenalty_nonneg _ hraw)
      (slopWordPenalty_nonneg _ _ _ _ hwt hwew)
  have htw : (0 : ℚ) < ((pySplitWhitespace prose).length : ℚ) := by
    have : 0 < (pySplitWhitespace prose).length := Nat.pos_of_ne_zero hwords
    exact_mod_cast this
  have hformula : (compute_slop_score slop_phrases gw prose allowlist config).slop_ratio
      = pyRound2 (max 0 (1
          - (slopTotalPenalty slop_phrases gw prose allowlist config
              / ((pySplitWhitespace prose).length : ℚ))
            * config.phrase_penalty_scale)) := by
    unfold compute_slop_score
    rw [if_neg hwords]
  have hx1 : 1 - (slopTotalPenalty slop_phrases gw prose allowlist config
      / ((pySplitWhitespace prose).length : ℚ)) * config.phrase_penalty_scale ≤ 1 := by
    have : 0 ≤ (slopTotalPenalty slop_phrases gw prose allowlist config
        / ((pySplitWhitespace prose).length : ℚ)) * config.phrase_penalty_scale := by
      positivity
    linarith
  refine ⟨hformula, ?_, ?_, slopRawMatches_not_allowlisted _ _ _, ?_⟩
  · rw [hformula]
    have h0 := pyRound2_mono
      (le_max_left 0 (1 - (slopTotalPenalty slop_phrases gw prose allowlist config
        / ((pySplitWhitespace prose).length : ℚ)) * config.phrase_penalty_scale))
    rwa [pyRound2_zero] at h0
  · rw [hformula]
    have h1 := pyRound2_mono (max_le (by norm_num : (0:ℚ) ≤ 1) hx1)
    rwa [pyRound2_one] at h1
  · simp only [compute_slop_score, slopTotalPenalty,
      slopRawMatches_filter_allowlist]

/-- Witness for C7 at a concrete input: the slop table's "Elara" phrase is
allowlisted as a character name, so the score equals the one computed
with the phrase dropped from the table. -/
theorem claim_C7_slop_ratio_and_allowlist_witness :
    compute_slop_score slopPhrasesEx gwEmpty slopProseEx slopAllowEx {}
      = compute_slop_score
          (slopPhrasesEx.filter
            fun pw => ! slopAllowEx.contains (pyLower (pyStripWS pw.1)))
          gwEmpty slopProseEx slopAllowEx {} :=
  (claim_C7_slop_ratio_and_allowlist slopPhrasesEx gwEmpty slopProseEx
      slopAllowEx {}
    (by
      intro pw h
      simp only [slopPhrasesEx, List.mem_singleton] at h
      rw [h]
      norm_num)
    (by
      intro pw h
      simp [gwEmpty] at h)
    (by show (0:ℚ) ≤ 10; norm_num)
    (by show (0:ℚ) ≤ 3/10; norm_num)
    (by decide)).2.2.2.2

end OnWriting
